import Mathlib

/-!
# cppasync: a shallow embedding of `src/async.hh`

The header implements a single-threaded task abstraction on top of C++20
coroutines.  The embedding below makes the coroutine machinery explicit:

* a coroutine handle is an address (`Handle`); the null handle is `none`;
* the coroutine frames (execution states) live in a store indexed by handle;
* everything user code can observe (a callback being invoked, a frame being
  destroyed) is appended to a log, so that "exactly once" is a statement
  about that log;
* an operation ends in an `Outcome`: it returns, throws, calls
  `std::terminate` (an exception leaving a `noexcept` function) or has
  undefined behaviour (a null or dangling handle is dereferenced).
-/

namespace cppasync

/-- Address of a coroutine frame, the payload of `std::coroutine_handle<>`.
A nullable handle is an `Option Handle`, with `none` for `nullptr`. -/
abbrev Handle := Nat

/-- Exceptions: the three `std::logic_error` subclasses of the header, and
whatever user code (a task body or a callback) throws. -/
inductive Exc (E : Type) where
  | user (e : E)
  | broken_promise
  | broken_resume
  | unfinished_promise
deriving DecidableEq, Repr

/-- How a call ends. -/
inductive Outcome (α E : Type) where
  | returned (a : α)
  | thrown (x : Exc E)
  | terminated
  | undefined
deriving DecidableEq, Repr

/-! ## `std::map` as an association list with unique keys -/

section Map

variable {K V : Type} [DecidableEq K]

/-- `m.find(k)`: the mapped value, `none` for `m.end()`. -/
def Map.find (m : List (K × V)) (k : K) : Option V :=
  match m with
  | [] => none
  | (k', v) :: rest => if k' = k then some v else Map.find rest k

/-- `m.erase(it)` for the iterator of key `k`. -/
def Map.erase (m : List (K × V)) (k : K) : List (K × V) :=
  m.filter (fun p => decide (p.1 ≠ k))

/-- `m[k] = v`: insert or overwrite. -/
def Map.assign (m : List (K × V)) (k : K) (v : V) : List (K × V) :=
  (k, v) :: Map.erase m k

/-- `m.empty()`. -/
def Map.empty (m : List (K × V)) : Bool := m.isEmpty

/-- The keys present in the map. -/
def Map.keys (m : List (K × V)) : List K := m.map Prod.fst

end Map

/-! ## `interlock<K, V>` -/

/-- What `interlock` can see of a coroutine through the handle it stores:
`done()`, and, for `resume()`, the awaiter the coroutine is suspended in.
`awaiting = some id` when it is suspended in the `interlock::awaiter{id, this}`
returned by `suspend(id)`; `none` when it is suspended anywhere else. -/
structure Waiter (K : Type) where
  done : Bool
  awaiting : Option K
deriving DecidableEq, Repr

/-- The two maps of `interlock<K, V>`. -/
structure interlock (K V : Type) where
  m_suspended : List (K × Handle)
  m_result : List (K × V)
deriving DecidableEq, Repr

/-- The object returned by `interlock::suspend(id)`; `_this` is the
interlock the methods are applied to. -/
structure interlock.awaiter (K : Type) where
  id : K
deriving DecidableEq, Repr

/-- Result of the statements of `interlock::resume` themselves: `lock` is
the interlock as it stands when `continuation.resume()` is called, that is,
as it is handed to the resumed coroutine (when nothing is resumed, it is the
interlock when the call returns); `outcome` is the outcome of the call;
`resumed` is the coroutine that was resumed (if any) together with what its
pending `co_await` evaluated to (`none` when it was not suspended in an
awaiter of this interlock).  The resumed coroutine then runs inside the
call until it suspends or finishes; `interlock.resume_returns` gives the
interlock when the call returns. -/
structure interlock.Resumed (K V E : Type) where
  lock : interlock K V
  outcome : Outcome Unit E
  resumed : Option (Handle × Option (Outcome V E))

section Interlock

variable {K V E : Type} [DecidableEq K]

/-- `interlock::empty()`. -/
def interlock.empty (L : interlock K V) : Bool := Map.empty L.m_suspended

/-- `interlock::suspend(id)`. -/
def interlock.suspend (_L : interlock K V) (id : K) : interlock.awaiter K := ⟨id⟩

/-- `interlock::awaiter::await_ready`. -/
def interlock.awaiter.await_ready (_a : interlock.awaiter K) : Bool := false

/-- `interlock::awaiter::await_suspend`: park the awaiting coroutine under
`id` and suspend (`true`). -/
def interlock.awaiter.await_suspend (a : interlock.awaiter K) (L : interlock K V)
    (awaitingCoroutine : Handle) : interlock K V × Bool :=
  ({ L with m_suspended := Map.assign L.m_suspended a.id awaitingCoroutine }, true)

/-- `interlock::awaiter::await_resume`: the value of the `co_await`
expression; the entry of `m_result` is read, not removed. -/
def interlock.awaiter.await_resume (a : interlock.awaiter K) (L : interlock K V) :
    Outcome V E :=
  match Map.find L.m_result a.id with
  | none => .thrown .broken_resume
  | some v => .returned v

/-- `continuation.resume()` as far as the interlock is concerned: the
coroutine continues at its suspension point, i.e. with the `await_resume` of
the awaiter it is suspended in. -/
def Waiter.resume (c : Waiter K) (L : interlock K V) : Option (Outcome V E) :=
  match c.awaiting with
  | none => none
  | some id => some (interlock.awaiter.await_resume ⟨id⟩ L)

/-- `interlock::resume(id, result)`, up to and including the call
`continuation.resume()`.  `coroutines` gives the frame behind a handle
(`none`: the frame no longer exists, so `done()` is undefined). -/
def interlock.resume (L : interlock K V) (coroutines : Handle → Option (Waiter K))
    (id : K) (result : V) : interlock.Resumed K V E :=
  match Map.find L.m_suspended id with
  | none => ⟨L, .thrown .broken_resume, none⟩
  | some continuation =>
    let L1 : interlock K V := { L with m_suspended := Map.erase L.m_suspended id }
    match coroutines continuation with
    | none => ⟨L1, .undefined, none⟩
    | some c =>
      if !c.done then
        let L2 : interlock K V := { L1 with m_result := Map.assign L1.m_result id result }
        ⟨L2, .returned (), some (continuation, c.resume L2)⟩
      else
        ⟨L1, .returned (), none⟩

/-- What happens to an interlock from outside: a coroutine awaits
`suspend(id)` and is parked by `await_suspend`, or the driver calls
`resume(id, result)`.  A `resume` carries the coroutine frames as they are at
the time of the call, since the coroutines run user code in between. -/
inductive interlock.Op (K V : Type) where
  | park (id : K) (awaitingCoroutine : Handle)
  | resume (coroutines : Handle → Option (Waiter K)) (id : K) (result : V)

/-- The interlock after one operation.  For a `resume` it is the interlock
handed to the resumed coroutine: what that coroutine does to the interlock
inside the call appears as the following operations of a sequence.  A
`resume` that throws leaves the interlock as it was (the exception type
plays no part in the state). -/
def interlock.step (L : interlock K V) : interlock.Op K V → interlock K V
  | .park id awaitingCoroutine =>
    (interlock.awaiter.await_suspend (L.suspend id) L awaitingCoroutine).1
  | .resume coroutines id result => (L.resume (E := Unit) coroutines id result).lock

/-- The interlock after a sequence of operations. -/
def interlock.run (L : interlock K V) : List (interlock.Op K V) → interlock K V
  | [] => L
  | op :: rest => interlock.run (L.step op) rest

/-- The keys under which coroutines park in a sequence of operations. -/
def interlock.parks : List (interlock.Op K V) → List K
  | [] => []
  | .park id _ :: rest => id :: interlock.parks rest
  | .resume _ _ _ :: rest => interlock.parks rest

/-- The interlock when the call `resume(id, result)` returns.  The resumed
coroutine runs inside the call (`continuation.resume()` returns only when it
suspends again or finishes); `during` lists the operations performed on the
interlock in that time, by the resumed coroutine and by whatever it resumes
in turn.  When no coroutine is resumed, nothing runs inside the call. -/
def interlock.resume_returns (L : interlock K V) (coroutines : Handle → Option (Waiter K))
    (id : K) (result : V) (during : List (interlock.Op K V)) : interlock K V :=
  match (L.resume (E := Unit) coroutines id result).resumed with
  | none => (L.resume (E := Unit) coroutines id result).lock
  | some _ => (L.resume (E := Unit) coroutines id result).lock.run during

/-- The interlock as constructed: both maps empty. -/
def interlock.new : interlock K V := ⟨[], []⟩

/-- Some key is in the pending map and in the result map at once. -/
def interlock.overlap (L : interlock K V) : Bool :=
  (Map.keys L.m_suspended).any (fun k => decide (k ∈ Map.keys L.m_result))

/-- A sequence of operations uses keys once: no coroutine parks under a key
for which `resume` was called earlier in the sequence (`used` holds the keys
resumed so far). -/
def interlock.single_use (used : List K) : List (interlock.Op K V) → Bool
  | [] => true
  | .park id _ :: rest => decide (id ∉ used) && interlock.single_use used rest
  | .resume _ id _ :: rest => interlock.single_use (id :: used) rest

end Interlock

/-! ## Callbacks and the observable log -/

/-- A `std::function<void(A)>` that holds a target.  User code is opaque to
the library: a callback is known by its identity and by whether a call with
a given argument throws.  An empty `std::function` is `none`. -/
structure Callback (A E : Type) where
  id : Nat
  raises : A → Option (Exc E)

/-- What the outside world observes of a run. -/
inductive Event (A E : Type) where
  | then_called (cb : Nat) (response : A)
  | fail_called (cb : Nat) (eptr : Exc E)
  | destroyed (coro : Handle)
deriving DecidableEq, Repr

/-! ## The promise classes -/

/-- The data members of `detail::async_promise_base`. -/
structure async_promise_base (E : Type) where
  m_parent : Option Handle
  drop : Bool
  fail : Option (Callback (Exc E) E)

/-- The members `m_resultType` and the anonymous union
`{ m_value, m_exception }` of `async_promise<T>`, as one tagged value. -/
inductive result_type (T E : Type) where
  | empty
  | value (m_value : T)
  | exception (m_exception : Exc E)
deriving DecidableEq, Repr

/-- The value specialisation `async_promise<T>`. -/
structure async_promise (T E : Type) where
  base : async_promise_base E
  then_ : Option (Callback T E)
  m_result : result_type T E

/-- The specialisation `async_promise<void>`; a null `std::exception_ptr`
is `none`. -/
structure async_promise_void (E : Type) where
  base : async_promise_base E
  then_ : Option (Callback Unit E)
  m_exception : Option (Exc E)

/-- The reference specialisation `async_promise<T&>`.  The referent is
identified with its value; `m_value = none` is the null pointer. -/
structure async_promise_ref (T E : Type) where
  base : async_promise_base E
  then_ : Option (Callback T E)
  m_value : Option T
  m_exception : Option (Exc E)

section Promise

variable {T E : Type}

/-- Run a callback: the event it leaves in the log and the exception it
throws, if any. -/
def Callback.call {A : Type} (cb : Callback A E) (ev : Event T E) (a : A) :
    List (Event T E) × Option (Exc E) :=
  ([ev], cb.raises a)

/-- `~async_promise<T>()`: the events of the destructor body and the
exception a callback threw in it, if any. -/
def async_promise.destructor (p : async_promise T E) : List (Event T E) × Option (Exc E) :=
  match p.m_result with
  | .value m_value =>
    match p.then_ with
    | some cb => cb.call (.then_called cb.id m_value) m_value
    | none => ([], none)
  | .exception m_exception =>
    match p.base.fail with
    | some cb => cb.call (.fail_called cb.id m_exception) m_exception
    | none => ([], none)
  | .empty => ([], none)

/-- `async_promise<T>::unhandled_exception`. -/
def async_promise.unhandled_exception (p : async_promise T E) (current_exception : Exc E) :
    async_promise T E :=
  { p with m_result := .exception current_exception }

/-- `async_promise<T>::return_value`. -/
def async_promise.return_value (p : async_promise T E) (value : T) : async_promise T E :=
  { p with m_result := .value value }

/-- `async_promise<T>::result` (both the `&` and the `&&` overload, which
differ only in moving the value out).  With an empty result the `assert`
fails and an inactive union member is read. -/
def async_promise.result (p : async_promise T E) : Outcome T E :=
  match p.m_result with
  | .exception m_exception => .thrown m_exception
  | .value m_value => .returned m_value
  | .empty => .undefined

/-- `~async_promise<void>()`. -/
def async_promise_void.destructor (p : async_promise_void E) :
    List (Event Unit E) × Option (Exc E) :=
  match p.m_exception with
  | some m_exception =>
    match p.base.fail with
    | some cb => cb.call (.fail_called cb.id m_exception) m_exception
    | none => ([], none)
  | none =>
    match p.then_ with
    | some cb => cb.call (.then_called cb.id ()) ()
    | none => ([], none)

/-- `async_promise<void>::return_void`. -/
def async_promise_void.return_void (p : async_promise_void E) : async_promise_void E := p

/-- `async_promise<void>::unhandled_exception`. -/
def async_promise_void.unhandled_exception (p : async_promise_void E)
    (current_exception : Exc E) : async_promise_void E :=
  { p with m_exception := some current_exception }

/-- `async_promise<void>::result`. -/
def async_promise_void.result (p : async_promise_void E) : Outcome Unit E :=
  match p.m_exception with
  | some m_exception => .thrown m_exception
  | none => .returned ()

/-- `~async_promise<T&>()`: the body is commented out in the source. -/
def async_promise_ref.destructor (_p : async_promise_ref T E) :
    List (Event T E) × Option (Exc E) :=
  ([], none)

/-- `async_promise<T&>::unhandled_exception`. -/
def async_promise_ref.unhandled_exception (p : async_promise_ref T E)
    (current_exception : Exc E) : async_promise_ref T E :=
  { p with m_exception := some current_exception }

/-- `async_promise<T&>::return_value`. -/
def async_promise_ref.return_value (p : async_promise_ref T E) (value : T) :
    async_promise_ref T E :=
  { p with m_value := some value }

/-- `async_promise<T&>::result`; dereferencing a null `m_value` is
undefined. -/
def async_promise_ref.result (p : async_promise_ref T E) : Outcome T E :=
  match p.m_exception with
  | some m_exception => .thrown m_exception
  | none =>
    match p.m_value with
    | some referent => .returned referent
    | none => .undefined

/-- Write access to the base subobject and to `then` of each promise class. -/
def async_promise.set_base (p : async_promise T E) (b : async_promise_base E) :
    async_promise T E :=
  { p with base := b }

/-- Assignment `promise().then = callback` for `async_promise<T>`. -/
def async_promise.set_then (p : async_promise T E) (callback : Option (Callback T E)) :
    async_promise T E :=
  { p with then_ := callback }

/-- Write access to the base subobject of `async_promise<void>`. -/
def async_promise_void.set_base (p : async_promise_void E) (b : async_promise_base E) :
    async_promise_void E :=
  { p with base := b }

/-- Assignment `promise().then = callback` for `async_promise<void>`. -/
def async_promise_void.set_then (p : async_promise_void E)
    (callback : Option (Callback Unit E)) : async_promise_void E :=
  { p with then_ := callback }

/-- Write access to the base subobject of `async_promise<T&>`. -/
def async_promise_ref.set_base (p : async_promise_ref T E) (b : async_promise_base E) :
    async_promise_ref T E :=
  { p with base := b }

/-- Assignment `promise().then = callback` for `async_promise<T&>`. -/
def async_promise_ref.set_then (p : async_promise_ref T E) (callback : Option (Callback T E)) :
    async_promise_ref T E :=
  { p with then_ := callback }

end Promise

/-! ## The template parameter of `async<T>` -/

/-- Which specialisation a task uses: `async<T>` for a value type,
`async<void>`, or `async<T&>`. -/
inductive Kind where
  | value
  | void
  | reference
deriving DecidableEq, Repr

/-- The argument type of the `then` callback and the type of the `co_await`
expression for each kind. -/
def Kind.Response (T : Type) : Kind → Type
  | .value => T
  | .void => Unit
  | .reference => T

/-- The member `promise_type` of `async_base<T>`: `detail::async_promise<T>`. -/
def promise_type (T E : Type) : Kind → Type
  | .value => async_promise T E
  | .void => async_promise_void E
  | .reference => async_promise_ref T E

section PromiseType

variable {T E : Type}

/-- The `async_promise_base` subobject. -/
def promise_type.base : {k : Kind} → promise_type T E k → async_promise_base E
  | .value, p => async_promise.base p
  | .void, p => async_promise_void.base p
  | .reference, p => async_promise_ref.base p

/-- Assignment to the members of the `async_promise_base` subobject. -/
def promise_type.set_base : {k : Kind} → promise_type T E k → async_promise_base E →
    promise_type T E k
  | .value, p, b => async_promise.set_base p b
  | .void, p, b => async_promise_void.set_base p b
  | .reference, p, b => async_promise_ref.set_base p b

/-- The member `then`. -/
def promise_type.then_ : {k : Kind} → promise_type T E k → Option (Callback (k.Response T) E)
  | .value, p => async_promise.then_ p
  | .void, p => async_promise_void.then_ p
  | .reference, p => async_promise_ref.then_ p

/-- Assignment `promise().then = callback`. -/
def promise_type.set_then : {k : Kind} → promise_type T E k →
    Option (Callback (k.Response T) E) → promise_type T E k
  | .value, p, c => async_promise.set_then p c
  | .void, p, c => async_promise_void.set_then p c
  | .reference, p, c => async_promise_ref.set_then p c

/-- The destructor of the promise. -/
def promise_type.destructor : {k : Kind} → promise_type T E k →
    List (Event (k.Response T) E) × Option (Exc E)
  | .value, p => async_promise.destructor p
  | .void, p => async_promise_void.destructor p
  | .reference, p => async_promise_ref.destructor p

/-- The member `result()`. -/
def promise_type.result : {k : Kind} → promise_type T E k → Outcome (k.Response T) E
  | .value, p => async_promise.result p
  | .void, p => async_promise_void.result p
  | .reference, p => async_promise_ref.result p

/-- What `co_return` calls: `return_value(value)`, or `return_void()`. -/
def promise_type.return_ : {k : Kind} → promise_type T E k → k.Response T → promise_type T E k
  | .value, p, v => async_promise.return_value p v
  | .void, p, _ => async_promise_void.return_void p
  | .reference, p, v => async_promise_ref.return_value p v

/-- The member `unhandled_exception()`, with `std::current_exception()`. -/
def promise_type.unhandled_exception : {k : Kind} → promise_type T E k → Exc E →
    promise_type T E k
  | .value, p, x => async_promise.unhandled_exception p x
  | .void, p, x => async_promise_void.unhandled_exception p x
  | .reference, p, x => async_promise_ref.unhandled_exception p x

/-- The promise holds no result yet: the state of its result members from
construction until the body returns or throws. -/
def promise_type.unset : {k : Kind} → promise_type T E k → Bool
  | .value, p =>
    match async_promise.m_result p with
    | .empty => true
    | _ => false
  | .void, p => (async_promise_void.m_exception p).isNone
  | .reference, p =>
    (async_promise_ref.m_value p).isNone && (async_promise_ref.m_exception p).isNone

/-- `async_promise_base::set_parent`. -/
def promise_type.set_parent {k : Kind} (p : promise_type T E k) (parent : Option Handle) :
    promise_type T E k :=
  p.set_base { p.base with m_parent := parent }

/-- Assignment `promise().drop = value`. -/
def promise_type.set_drop {k : Kind} (p : promise_type T E k) (value : Bool) :
    promise_type T E k :=
  p.set_base { p.base with drop := value }

/-- Assignment `promise().fail = callback`. -/
def promise_type.set_fail {k : Kind} (p : promise_type T E k)
    (callback : Option (Callback (Exc E) E)) : promise_type T E k :=
  p.set_base { p.base with fail := callback }

end PromiseType

/-! ## Coroutine frames and the store -/

/-- A coroutine frame (execution state): whether the coroutine is suspended
at its final suspend point (`done()`), and its promise object. -/
structure Frame (T E : Type) (k : Kind) where
  done : Bool
  promise : promise_type T E k

/-- The live coroutine frames and the log of observable events. -/
structure World (T E : Type) (k : Kind) where
  frames : Handle → Option (Frame T E k)
  log : List (Event (k.Response T) E)

/-- A call that only touches the store: the world afterwards and how the
call ended. -/
structure Step (T E : Type) (k : Kind) (α : Type) where
  world : World T E k
  outcome : Outcome α E

/-- The owning handle `async<T>`: its only data member. -/
structure async where
  m_coroutine : Option Handle
deriving DecidableEq, Repr

/-- A call of a member function of `async<T>`: the handle object
afterwards, the world afterwards, and how the call ended. -/
structure Call (T E : Type) (k : Kind) where
  self : async
  world : World T E k
  outcome : Outcome Unit E

/-- What a `co_await` expression does to the awaiting coroutine: it
suspends, or the expression has a value. -/
inductive Awaited (R : Type) where
  | suspended
  | value (r : R)
deriving DecidableEq, Repr

section Coroutine

variable {T E : Type} {k : Kind}

/-- A store whose only frame is at address 0, with an empty log; the
concrete scenarios below start from it. -/
def example_world (k : Kind) (promise : promise_type Nat String k) (done : Bool) :
    World Nat String k :=
  ⟨fun h => if h = 0 then some ⟨done, promise⟩ else none, []⟩

/-- Overwrite the frame at `h`. -/
def World.store (w : World T E k) (h : Handle) (f : Frame T E k) : World T E k :=
  { w with frames := fun h' => if h' = h then some f else w.frames h' }

/-- Release the frame at `h`. -/
def World.free (w : World T E k) (h : Handle) : World T E k :=
  { w with frames := fun h' => if h' = h then none else w.frames h' }

/-- Append events to the log. -/
def World.emit (w : World T E k) (events : List (Event (k.Response T) E)) : World T E k :=
  { w with log := w.log ++ events }

/-- `coro.destroy()`: run the promise destructor, then release the frame.
The destructor is `noexcept`, so a callback that throws in it ends in
`std::terminate`; destroying a frame that no longer exists is undefined. -/
def destroy (w : World T E k) (coro : Handle) : Step T E k Unit :=
  match w.frames coro with
  | none => ⟨w, .undefined⟩
  | some f =>
    match f.promise.destructor with
    | (events, some _) => ⟨w.emit events, .terminated⟩
    | (events, none) => ⟨((w.emit events).free coro).emit [.destroyed coro], .returned ()⟩

/-- `final_awaitable::await_suspend(coro)`: the handle control is
transferred to, `none` for `std::noop_coroutine()`. -/
def final_awaitable.await_suspend (w : World T E k) (coro : Handle) :
    Step T E k (Option Handle) :=
  match w.frames coro with
  | none => ⟨w, .undefined⟩
  | some f =>
    match f.promise.base.m_parent with
    | none =>
      if f.promise.base.drop && f.done then
        match destroy w coro with
        | ⟨w', .returned _⟩ => ⟨w', .returned none⟩
        | ⟨w', .thrown x⟩ => ⟨w', .thrown x⟩
        | ⟨w', .terminated⟩ => ⟨w', .terminated⟩
        | ⟨w', .undefined⟩ => ⟨w', .undefined⟩
      else
        ⟨w, .returned none⟩
    | some continuation =>
      ⟨w.store coro { f with promise := f.promise.set_parent none }, .returned (some continuation)⟩

/-- The body of the coroutine `coro` executes `co_return value` (or flows
off the end of a `void` body): `return_value`/`return_void`, then
`co_await final_suspend()`, whose awaiter is never ready, so the coroutine
is suspended at its final suspend point (`done()` holds) when
`final_awaitable::await_suspend` runs. -/
def co_return (w : World T E k) (coro : Handle) (value : k.Response T) :
    Step T E k (Option Handle) :=
  match w.frames coro with
  | none => ⟨w, .undefined⟩
  | some f =>
    final_awaitable.await_suspend
      (w.store coro { done := true, promise := f.promise.return_ value }) coro

/-- An exception leaves the body of the coroutine `coro`:
`unhandled_exception()`, then `co_await final_suspend()`. -/
def body_throws (w : World T E k) (coro : Handle) (current_exception : Exc E) :
    Step T E k (Option Handle) :=
  match w.frames coro with
  | none => ⟨w, .undefined⟩
  | some f =>
    final_awaitable.await_suspend
      (w.store coro { done := true, promise := f.promise.unhandled_exception current_exception })
      coro

/-! ## `async_base<T>` -/

/-- `async_base()`: the empty handle. -/
def async_base.default : async := ⟨none⟩

/-- `explicit async_base(handle_type coroutine)`. -/
def async_base.from_handle (coroutine : Option Handle) : async := ⟨coroutine⟩

/-- `async_base(async_base&& t)`: the new handle and `t` afterwards. -/
def async_base.move (t : async) : async × async :=
  (⟨t.m_coroutine⟩, { t with m_coroutine := none })

/-- `~async_base() noexcept(false)`. -/
def async_base.destructor (self : async) (w : World T E k) : Step T E k Unit :=
  match self.m_coroutine with
  | none => ⟨w, .returned ()⟩
  | some m_coroutine =>
    match w.frames m_coroutine with
    | none => ⟨w, .undefined⟩
    | some f =>
      if !f.done then
        match destroy w m_coroutine with
        | ⟨w', .returned _⟩ => ⟨w', .thrown .unfinished_promise⟩
        | other => other
      else
        destroy w m_coroutine

/-- `async_base::operator=(async_base&& other)`: `*this` and `other`
afterwards.  `same` says that `other` is `*this`. -/
def async_base.move_assign (self other : async) (same : Bool) (w : World T E k) :
    (async × async) × Step T E k Unit :=
  if !same then
    match self.m_coroutine with
    | some m_coroutine => ((⟨other.m_coroutine⟩, ⟨none⟩), destroy w m_coroutine)
    | none => ((⟨other.m_coroutine⟩, ⟨none⟩), ⟨w, .returned ()⟩)
  else
    ((self, other), ⟨w, .returned ()⟩)

/-- The struct `awaitable_base` and the two local structs `awaitable`
derived from it: a copy of the handle. -/
structure awaitable where
  m_coroutine : Option Handle
deriving DecidableEq, Repr

/-- `awaitable_base::await_ready`. -/
def awaitable.await_ready (_a : awaitable) : Bool := false

/-- `awaitable_base::await_suspend(parent)`: `m_coroutine.promise()` and
`m_coroutine.done()` dereference the handle without a check. -/
def awaitable.await_suspend (a : awaitable) (w : World T E k) (parent : Handle) :
    Step T E k Bool :=
  match a.m_coroutine with
  | none => ⟨w, .undefined⟩
  | some m_coroutine =>
    match w.frames m_coroutine with
    | none => ⟨w, .undefined⟩
    | some f =>
      ⟨w.store m_coroutine { f with promise := f.promise.set_parent (some parent) },
        .returned (!f.done)⟩

/-- `awaitable::await_resume()` of `operator co_await() const&` and of
`operator co_await() const&&` (which moves the result out). -/
def awaitable.await_resume (a : awaitable) (w : World T E k) :
    Step T E k (k.Response T) :=
  match a.m_coroutine with
  | none => ⟨w, .thrown .broken_promise⟩
  | some m_coroutine =>
    match w.frames m_coroutine with
    | none => ⟨w, .undefined⟩
    | some f => ⟨w, f.promise.result⟩

/-- `async_base::operator co_await()`. -/
def async_base.operator_co_await (self : async) : awaitable := ⟨self.m_coroutine⟩

/-- The expression `co_await task` inside the coroutine `parent`, up to the
point where `parent` suspends or the expression has its value:
`await_ready()`, then `await_suspend(parent)`, then, unless that suspends,
`await_resume()`. -/
def co_await (w : World T E k) (task : async) (parent : Handle) :
    Step T E k (Awaited (k.Response T)) :=
  let a := async_base.operator_co_await task
  let resume (w : World T E k) : Step T E k (Awaited (k.Response T)) :=
    match a.await_resume w with
    | ⟨w', .returned r⟩ => ⟨w', .returned (.value r)⟩
    | ⟨w', .thrown x⟩ => ⟨w', .thrown x⟩
    | ⟨w', .terminated⟩ => ⟨w', .terminated⟩
    | ⟨w', .undefined⟩ => ⟨w', .undefined⟩
  if a.await_ready then resume w
  else
    match a.await_suspend w parent with
    | ⟨w', .returned true⟩ => ⟨w', .returned .suspended⟩
    | ⟨w', .returned false⟩ => resume w'
    | ⟨w', .thrown x⟩ => ⟨w', .thrown x⟩
    | ⟨w', .terminated⟩ => ⟨w', .terminated⟩
    | ⟨w', .undefined⟩ => ⟨w', .undefined⟩

/-- `async_base::no_wait()`. -/
def async_base.no_wait (self : async) (w : World T E k) : Call T E k :=
  match self.m_coroutine with
  | none => ⟨self, w, .undefined⟩
  | some m_coroutine =>
    match w.frames m_coroutine with
    | none => ⟨self, w, .undefined⟩
    | some f =>
      if !f.done then
        ⟨{ self with m_coroutine := none },
          w.store m_coroutine { f with promise := f.promise.set_drop true }, .returned ()⟩
      else
        ⟨self, w, .returned ()⟩

/-! ## `async<T>` and `async<void>` -/

/-- `async(async&& t) noexcept : async_base<T>(t.m_coroutine) {}` (the same
text in `async<T>` and in `async<void>`): the argument is a handle, so the
base is initialised by `async_base(handle_type)`, and `t` is not written.
Returns the new handle and `t` afterwards. -/
def async.move (t : async) : async × async :=
  (async_base.from_handle t.m_coroutine, t)

/-- An invocation `callback(response)` from a member of `async`: the event,
and the exception that leaves the call, if any. -/
def Callback.invoke (callback : Callback (k.Response T) E) (w : World T E k)
    (response : k.Response T) : World T E k × Outcome Unit E :=
  (w.emit [.then_called callback.id response],
    match callback.raises response with
    | some x => .thrown x
    | none => .returned ())

/-- An invocation `exception_cb(eptr)`. -/
def Callback.invoke_fail (exception_cb : Callback (Exc E) E) (w : World T E k)
    (eptr : Exc E) : World T E k × Outcome Unit E :=
  (w.emit [.fail_called exception_cb.id eptr],
    match exception_cb.raises eptr with
    | some x => .thrown x
    | none => .returned ())

/-- `async<T>::then(callback)`, the primary template (value and reference
results). -/
def async.then_ (self : async) (w : World T E k) (callback : Callback (k.Response T) E) :
    Call T E k :=
  match self.m_coroutine with
  | none => ⟨self, w, .returned ()⟩
  | some m_coroutine =>
    match w.frames m_coroutine with
    | none => ⟨self, w, .undefined⟩
    | some f =>
      if !f.done then
        ⟨{ self with m_coroutine := none },
          w.store m_coroutine
            { f with promise := (f.promise.set_then (some callback)).set_drop true },
          .returned ()⟩
      else
        match f.promise.result with
        | .returned response =>
          let r := callback.invoke w response
          ⟨self, r.1, r.2⟩
        | .thrown x => ⟨self, w, .thrown x⟩
        | .terminated => ⟨self, w, .terminated⟩
        | .undefined => ⟨self, w, .undefined⟩

/-- `async<T>::thenOrCatch(response_cb, exception_cb)`, the primary
template. -/
def async.thenOrCatch (self : async) (w : World T E k)
    (response_cb : Callback (k.Response T) E) (exception_cb : Callback (Exc E) E) :
    Call T E k :=
  match self.m_coroutine with
  | none => ⟨self, w, .returned ()⟩
  | some m_coroutine =>
    match w.frames m_coroutine with
    | none => ⟨self, w, .undefined⟩
    | some f =>
      if !f.done then
        ⟨{ self with m_coroutine := none },
          w.store m_coroutine
            { f with
              promise :=
                ((f.promise.set_then (some response_cb)).set_fail (some exception_cb)).set_drop true },
          .returned ()⟩
      else
        -- try { response_cb(m_coroutine.promise().result()); }
        let attempt : World T E k × Outcome Unit E :=
          match f.promise.result with
          | .returned response => response_cb.invoke w response
          | .thrown x => (w, .thrown x)
          | .terminated => (w, .terminated)
          | .undefined => (w, .undefined)
        -- catch (...) { exception_cb(std::current_exception()); }
        match attempt with
        | (w', .thrown x) =>
          let r := exception_cb.invoke_fail w' x
          ⟨self, r.1, r.2⟩
        | (w', other) => ⟨self, w', other⟩

/-- `async<void>::then(callback)`: no null check, and on a finished task
the callback is called without reading the result. -/
def async_void.then_ (self : async) (w : World T E .void) (callback : Callback Unit E) :
    Call T E .void :=
  match self.m_coroutine with
  | none => ⟨self, w, .undefined⟩
  | some m_coroutine =>
    match w.frames m_coroutine with
    | none => ⟨self, w, .undefined⟩
    | some f =>
      if !f.done then
        ⟨{ self with m_coroutine := none },
          w.store m_coroutine
            { f with promise := (f.promise.set_drop true).set_then (some callback) },
          .returned ()⟩
      else
        let r := Callback.invoke (k := .void) callback w ()
        ⟨self, r.1, r.2⟩

/-- `async<void>::thenOrCatch(response_cb, exception_cb)`. -/
def async_void.thenOrCatch (self : async) (w : World T E .void)
    (response_cb : Callback Unit E) (exception_cb : Callback (Exc E) E) : Call T E .void :=
  match self.m_coroutine with
  | none => ⟨self, w, .returned ()⟩
  | some m_coroutine =>
    match w.frames m_coroutine with
    | none => ⟨self, w, .undefined⟩
    | some f =>
      if !f.done then
        ⟨{ self with m_coroutine := none },
          w.store m_coroutine
            { f with
              promise :=
                ((f.promise.set_then (some response_cb)).set_fail (some exception_cb)).set_drop true },
          .returned ()⟩
      else
        -- try { m_coroutine.promise().result(); response_cb(); }
        let attempt : World T E .void × Outcome Unit E :=
          match f.promise.result with
          | .returned _ => Callback.invoke (k := .void) response_cb w ()
          | .thrown x => (w, .thrown x)
          | .terminated => (w, .terminated)
          | .undefined => (w, .undefined)
        -- catch (...) { exception_cb(std::current_exception()); }
        match attempt with
        | (w', .thrown x) =>
          let r := exception_cb.invoke_fail w' x
          ⟨self, r.1, r.2⟩
        | (w', other) => ⟨self, w', other⟩

/-- The member `then` a call `task.then(callback)` resolves to, by the
class of `task`: `async<void>` is an explicit specialisation, every other
`async<T>` (value or reference) is the primary template. -/
def Kind.then_ : (k : Kind) → async → World T E k → Callback (k.Response T) E → Call T E k
  | .value => async.then_
  | .void => async_void.then_
  | .reference => async.then_

/-- The member `thenOrCatch` a call resolves to, by the class of the task. -/
def Kind.thenOrCatch : (k : Kind) → async → World T E k → Callback (k.Response T) E →
    Callback (Exc E) E → Call T E k
  | .value => async.thenOrCatch
  | .void => async_void.thenOrCatch
  | .reference => async.thenOrCatch

end Coroutine

/-! ## Facts about the map model -/

section MapLemmas

variable {K V : Type} [DecidableEq K]

theorem Map.find_eq_none_iff (m : List (K × V)) (k : K) :
    Map.find m k = none ↔ k ∉ Map.keys m := by
  induction m with
  | nil => simp [Map.find, Map.keys]
  | cons p rest ih =>
    obtain ⟨k', v⟩ := p
    by_cases h : k' = k
    · simp [Map.find, Map.keys, h]
    · have h' : ¬ k = k' := fun e => h e.symm
      simpa [Map.find, Map.keys, h, h'] using ih

theorem Map.not_mem_keys_erase (m : List (K × V)) (k : K) :
    k ∉ Map.keys (Map.erase m k) := by
  simp [Map.keys, Map.erase, List.mem_filter]

theorem Map.find_erase_self (m : List (K × V)) (k : K) :
    Map.find (Map.erase m k) k = none :=
  (Map.find_eq_none_iff _ _).mpr (Map.not_mem_keys_erase m k)

theorem Map.find_assign_self (m : List (K × V)) (k : K) (v : V) :
    Map.find (Map.assign m k v) k = some v := by
  simp [Map.assign, Map.find]

theorem Map.erase_eq_nil (m : List (K × V)) (k : K)
    (h : ∀ k' ∈ Map.keys m, k' = k) : Map.erase m k = [] := by
  simp only [Map.erase, List.filter_eq_nil_iff]
  intro p hp
  have : p.1 = k := h p.1 (List.mem_map_of_mem Prod.fst hp)
  simp [this]

end MapLemmas

/-! ## Claims about `interlock` -/

section InterlockClaims

variable {K V E : Type} [DecidableEq K]

/-- **C2.** When `k` is not pending, `resume(k, v)` throws `broken_resume`,
resumes nothing and leaves both maps as they were. -/
theorem interlock_resume_unknown_key (L : interlock K V)
    (coroutines : Handle → Option (Waiter K)) (k : K) (v : V)
    (hk : k ∉ Map.keys L.m_suspended) :
    (L.resume (E := E) coroutines k v).outcome = .thrown .broken_resume ∧
    (L.resume (E := E) coroutines k v).resumed = none ∧
    (L.resume (E := E) coroutines k v).lock.m_suspended = L.m_suspended ∧
    (L.resume (E := E) coroutines k v).lock.m_result = L.m_result := by
  have hfind := (Map.find_eq_none_iff L.m_suspended k).mpr hk
  simp [interlock.resume, hfind]

/-- Scenario 4 of the specification: `L.resume(9, "x")` while only key `7`
is pending. -/
theorem interlock_resume_unknown_key_witness :
    ((⟨[(7, 1)], []⟩ : interlock Nat String).resume (E := Unit)
        (fun _ => some ⟨false, some 7⟩) 9 "x").outcome = .thrown .broken_resume ∧
    ((⟨[(7, 1)], []⟩ : interlock Nat String).resume (E := Unit)
        (fun _ => some ⟨false, some 7⟩) 9 "x").lock.m_suspended = [(7, 1)] ∧
    ((⟨[(7, 1)], []⟩ : interlock Nat String).resume (E := Unit)
        (fun _ => some ⟨false, some 7⟩) 9 "x").lock.m_result = [] :=
  have h := interlock_resume_unknown_key (E := Unit) (⟨[(7, 1)], []⟩ : interlock Nat String)
    (fun _ => some ⟨false, some 7⟩) 9 "x" (by decide)
  ⟨h.1, h.2.2.1, h.2.2.2⟩

end InterlockClaims

/-! ## Claims about tasks -/

section TaskClaims

variable {T E : Type}

attribute [simp] co_await co_return body_throws final_awaitable.await_suspend destroy
  World.store World.free World.emit awaitable.await_ready awaitable.await_suspend
  awaitable.await_resume async_base.operator_co_await async_base.destructor
  async_base.no_wait async_base.move async_base.from_handle async.move
  Callback.call Callback.invoke Callback.invoke_fail
  async.then_ async.thenOrCatch async_void.then_ async_void.thenOrCatch
  Kind.then_ Kind.thenOrCatch
  promise_type.base promise_type.set_base promise_type.then_ promise_type.set_then
  promise_type.destructor promise_type.result promise_type.return_
  promise_type.unhandled_exception promise_type.set_parent promise_type.set_drop
  promise_type.set_fail
  async_promise.destructor async_promise.unhandled_exception async_promise.return_value
  async_promise.result async_promise.set_base async_promise.set_then
  async_promise_void.destructor async_promise_void.return_void
  async_promise_void.unhandled_exception async_promise_void.result
  async_promise_void.set_base async_promise_void.set_then
  async_promise_ref.destructor async_promise_ref.unhandled_exception
  async_promise_ref.return_value async_promise_ref.result async_promise_ref.set_base
  async_promise_ref.set_then

/-- **C3.** Take a running task (its frame is live, not done, holds no
result yet and is owned, i.e. not detached) of any kind.  If its body
returns `v`, awaiting the finished task yields `v` without suspending; if
its body throws `x`, awaiting the finished task throws `x` at the await
site.  A task finishes in one of these two ways, so there is no other
outcome. -/
theorem await_finished_task (k : Kind) (w : World T E k) (coro parent : Handle)
    (f : Frame T E k) (hlive : w.frames coro = some f) (hrun : f.done = false)
    (hunset : f.promise.unset = true) (howned : f.promise.base.drop = false) :
    (∀ v : k.Response T,
      (co_await (co_return w coro v).world ⟨some coro⟩ parent).outcome
        = .returned (.value v)) ∧
    (∀ x : Exc E,
      (co_await (body_throws w coro x).world ⟨some coro⟩ parent).outcome = .thrown x) := by
  obtain ⟨done, p⟩ := f
  simp only at hrun howned hunset
  subst hrun
  cases k
  · obtain ⟨⟨m_parent, drop, fail⟩, then_, m_result⟩ := p
    simp only [promise_type.base] at howned
    subst howned
    cases m_parent <;> simp [hlive]
  · obtain ⟨⟨m_parent, drop, fail⟩, then_, m_exception⟩ := p
    simp only [promise_type.base] at howned
    simp [promise_type.unset] at hunset
    subst howned hunset
    cases m_parent <;> simp [hlive] <;> intro v <;> rfl
  · obtain ⟨⟨m_parent, drop, fail⟩, then_, m_value, m_exception⟩ := p
    simp only [promise_type.base] at howned
    simp [promise_type.unset] at hunset
    obtain ⟨hv, hx⟩ := hunset
    subst howned hv hx
    cases m_parent <;> simp [hlive]

/-- Scenario 1 of the specification: the body of the task at address 0
returns `42`; awaiting it yields `42`. -/
theorem await_finished_task_witness :
    (co_await (co_return (example_world .value ⟨⟨none, false, none⟩, none, .empty⟩ false) 0
        (42 : Nat)).world ⟨some 0⟩ 1).outcome = .returned (.value (42 : Nat)) :=
  (await_finished_task .value (example_world .value ⟨⟨none, false, none⟩, none, .empty⟩ false)
    0 1 ⟨false, ⟨⟨none, false, none⟩, none, .empty⟩⟩ rfl rfl rfl rfl).1 (42 : Nat)

/-- **C4.** For a handle that is empty or refers to a live frame whose
promise destructor lets no exception escape (as is the case when no callback
is stored, the state of an owned frame): destroying the handle throws
`unfinished_promise` exactly when the handle is non-empty and its task is
not done; a non-empty handle always destroys the frame, and returns
normally when the task is done; an empty handle changes nothing. -/
theorem handle_destruction (k : Kind) (w : World T E k) (self : async)
    (hvalid : ∀ h, self.m_coroutine = some h →
      ∃ f, w.frames h = some f ∧ f.promise.destructor.2 = none) :
    ((async_base.destructor self w).outcome = .thrown .unfinished_promise ↔
      ∃ h f, self.m_coroutine = some h ∧ w.frames h = some f ∧ f.done = false) ∧
    (∀ h f, self.m_coroutine = some h → w.frames h = some f →
      (async_base.destructor self w).world.frames h = none ∧
      (async_base.destructor self w).world.log
        = w.log ++ f.promise.destructor.1 ++ [.destroyed h] ∧
      (f.done = true → (async_base.destructor self w).outcome = .returned ())) ∧
    (self.m_coroutine = none → async_base.destructor self w = ⟨w, .returned ()⟩) := by
  obtain ⟨m_coroutine⟩ := self
  cases m_coroutine with
  | none => simp
  | some h =>
    obtain ⟨f, hf, hq⟩ := hvalid h rfl
    obtain ⟨done, p⟩ := f
    rcases hd : promise_type.destructor p with ⟨events, thrown⟩
    rw [hd] at hq
    simp only at hq
    subst hq
    cases done <;> simp [-promise_type.destructor, hf, hd] <;>
    · intro h' f' hh hf'
      subst hh
      rw [hf] at hf'
      cases hf'
      simp [-promise_type.destructor, hd]

/-- Destroying the owning handle of the running task at address 0 throws
`unfinished_promise`. -/
theorem handle_destruction_witness :
    (async_base.destructor ⟨some 0⟩
      (example_world .value ⟨⟨none, false, none⟩, none, .empty⟩ false)).outcome
      = .thrown .unfinished_promise :=
  (handle_destruction .value (example_world .value ⟨⟨none, false, none⟩, none, .empty⟩ false)
    ⟨some 0⟩
    (fun h hh => ⟨⟨false, ⟨⟨none, false, none⟩, none, .empty⟩⟩, by cases hh; rfl, rfl⟩)).1.mpr
    ⟨0, ⟨false, ⟨⟨none, false, none⟩, none, .empty⟩⟩, rfl, rfl, rfl⟩

/-- **C5.** Awaiting an empty handle never reaches the `broken_promise`
check: `await_suspend`, which runs before `await_resume`, writes the parent
through the null handle, which is undefined behaviour.  Only `await_resume`
on its own would throw `broken_promise`. -/
theorem await_empty_handle (k : Kind) (w : World T E k) (parent : Handle) :
    (co_await w ⟨none⟩ parent).outcome = .undefined ∧
    (awaitable.await_suspend ⟨none⟩ w parent).outcome = .undefined ∧
    (awaitable.await_resume ⟨none⟩ w).outcome = .thrown .broken_promise := by
  simp

/-- **C6.** On a value task that has finished with `v` and whose frame
stores no `then` callback (it is still owned), `then(cb)` calls `cb` once
with `v` before it returns, leaves every frame as it was (no callback is
stored) and keeps the handle; destroying the handle afterwards only destroys
the frame, so `cb` has run exactly once. -/
theorem then_on_finished_value (w : World T E .value) (coro : Handle)
    (f : Frame T E .value) (v : T) (cb : Callback T E)
    (hlive : w.frames coro = some f) (hdone : f.done = true)
    (hvalue : async_promise.m_result f.promise = .value v)
    (hnone : async_promise.then_ f.promise = none) :
    (async.then_ ⟨some coro⟩ w cb).world.log = w.log ++ [.then_called cb.id v] ∧
    (async.then_ ⟨some coro⟩ w cb).world.frames = w.frames ∧
    (async.then_ ⟨some coro⟩ w cb).self = ⟨some coro⟩ ∧
    (async_base.destructor (async.then_ ⟨some coro⟩ w cb).self
        (async.then_ ⟨some coro⟩ w cb).world).world.log
      = w.log ++ [.then_called cb.id v, .destroyed coro] ∧
    (async_base.destructor (async.then_ ⟨some coro⟩ w cb).self
        (async.then_ ⟨some coro⟩ w cb).world).outcome = .returned () := by
  obtain ⟨done, p⟩ := f
  obtain ⟨base, then_, m_result⟩ := p
  simp only at hdone hvalue hnone
  subst hdone hvalue hnone
  simp [hlive]

/-- Scenario 5 of the specification: the task at address 0 has finished with
`5`; `then(cb)` runs `cb(5)` before it returns. -/
theorem then_on_finished_value_witness :
    (async.then_ ⟨some 0⟩
        (example_world .value ⟨⟨none, false, none⟩, none, .value 5⟩ true)
        (⟨1, fun _ => none⟩ : Callback Nat String)).world.log
      = ([.then_called 1 5] : List (Event Nat String)) :=
  (then_on_finished_value (example_world .value ⟨⟨none, false, none⟩, none, .value 5⟩ true) 0
    ⟨true, ⟨⟨none, false, none⟩, none, .value 5⟩⟩ 5 ⟨1, fun _ => none⟩ rfl rfl rfl rfl).1

/-- **C7.** A pending reference task at address 0, with no parent linked:
`then(cb)` stores `cb`, marks the frame detached and empties the handle;
when the body returns (the referent is `5`), the frame is destroyed and `cb`
has not been called, because `~async_promise<T&>()` calls nothing. -/
theorem then_on_pending_reference :
    (async.then_ ⟨some 0⟩
        (example_world .reference ⟨⟨none, false, none⟩, none, none, none⟩ false)
        (⟨1, fun _ => none⟩ : Callback Nat String)).self = ⟨none⟩ ∧
    (co_return (async.then_ ⟨some 0⟩
        (example_world .reference ⟨⟨none, false, none⟩, none, none, none⟩ false)
        (⟨1, fun _ => none⟩ : Callback Nat String)).world 0 (5 : Nat)).world.log
      = [.destroyed 0] := by
  simp [example_world]

/-- The part of C7 the code keeps: on a pending value or void task with no
parent linked, `then(cb)` calls nothing and empties the handle; when the
body returns `v`, `cb` is called once with `v` and, unless `cb` throws, the
frame is destroyed once; destroying the emptied handle does nothing. -/
theorem then_on_pending_value_or_void (k : Kind) (w : World T E k) (coro : Handle)
    (f : Frame T E k) (cb : Callback (k.Response T) E) (hk : k ≠ .reference)
    (hlive : w.frames coro = some f) (hrun : f.done = false)
    (hunset : f.promise.unset = true) (hparent : f.promise.base.m_parent = none) :
    (k.then_ ⟨some coro⟩ w cb).world.log = w.log ∧
    (k.then_ ⟨some coro⟩ w cb).self = ⟨none⟩ ∧
    (∀ v : k.Response T,
      (co_return (k.then_ ⟨some coro⟩ w cb).world coro v).world.log
        = w.log ++ .then_called cb.id v ::
            (match cb.raises v with
              | some _ => []
              | none => [.destroyed coro])) ∧
    (∀ w' : World T E k,
      async_base.destructor (k.then_ ⟨some coro⟩ w cb).self w' = ⟨w', .returned ()⟩) := by
  obtain ⟨done, p⟩ := f
  simp only at hrun hparent hunset
  subst hrun
  cases k
  · obtain ⟨⟨m_parent, drop, fail⟩, then_, m_result⟩ := p
    simp only [promise_type.base] at hparent
    subst hparent
    refine ⟨by simp [hlive], by simp [hlive], ?_, by simp [hlive]⟩
    intro v
    cases hc : cb.raises v <;> simp [hlive, hc]
  · obtain ⟨⟨m_parent, drop, fail⟩, then_, m_exception⟩ := p
    simp only [promise_type.base] at hparent
    simp [promise_type.unset] at hunset
    subst hparent hunset
    refine ⟨by simp [hlive], by simp [hlive], ?_, by simp [hlive]⟩
    intro v
    cases v
    cases hc : cb.raises () <;> simp [hlive, hc]
  · exact absurd rfl hk

/-- **C8**, as stated, fails: the task at address 0 has finished with the
value `5` and `onValue` (callback 1) throws `"bad"` when called;
`thenOrCatch` runs `onValue(5)` and then, from its `catch (...)`, also
`onError` (callback 2) with the error `onValue` threw. -/
theorem thenOrCatch_runs_both_callbacks :
    (async.thenOrCatch ⟨some 0⟩
        (example_world .value ⟨⟨none, false, none⟩, none, .value 5⟩ true)
        (⟨1, fun _ => some (.user "bad")⟩ : Callback Nat String)
        (⟨2, fun _ => none⟩ : Callback (Exc String) String)).world.log
      = ([.then_called 1 5, .fail_called 2 (.user "bad")] : List (Event Nat String)) := by
  simp [example_world]

/-- **C8**, amended.  For a non-empty handle over a live frame:
* if the task is already finished with an error `x`, `thenOrCatch` runs only
  `onError`, once, with `x`;
* if it is already finished with a value `v`, `thenOrCatch` runs `onValue`
  once with `v`, and runs `onError` afterwards exactly when `onValue` throws,
  with the error `onValue` threw; in both finished cases nothing is stored;
* if it is pending, of value or void kind, with no parent linked,
  `thenOrCatch` runs nothing and empties the handle; when the body later
  returns `v` only `onValue` runs, once, with `v`, and when the body later
  throws `x` only `onError` runs, once, with `x`. -/
theorem thenOrCatch_dispatch (k : Kind) (w : World T E k) (coro : Handle)
    (f : Frame T E k) (onValue : Callback (k.Response T) E)
    (onError : Callback (Exc E) E) (hlive : w.frames coro = some f) :
    (f.done = true →
      (∀ x, f.promise.result = .thrown x →
        (k.thenOrCatch ⟨some coro⟩ w onValue onError).world.log
          = w.log ++ [.fail_called onError.id x]) ∧
      (∀ v, f.promise.result = .returned v →
        (k.thenOrCatch ⟨some coro⟩ w onValue onError).world.log
          = w.log ++ .then_called onValue.id v ::
              (match onValue.raises v with
                | some y => [.fail_called onError.id y]
                | none => [])) ∧
      (k.thenOrCatch ⟨some coro⟩ w onValue onError).world.frames = w.frames) ∧
    (f.done = false → k ≠ .reference → f.promise.unset = true → f.promise.base.m_parent = none →
      (k.thenOrCatch ⟨some coro⟩ w onValue onError).world.log = w.log ∧
      (k.thenOrCatch ⟨some coro⟩ w onValue onError).self = ⟨none⟩ ∧
      (∀ v : k.Response T,
        (co_return (k.thenOrCatch ⟨some coro⟩ w onValue onError).world coro v).world.log
          = w.log ++ .then_called onValue.id v ::
              (match onValue.raises v with
                | some _ => []
                | none => [.destroyed coro])) ∧
      (∀ x : Exc E,
        (body_throws (k.thenOrCatch ⟨some coro⟩ w onValue onError).world coro x).world.log
          = w.log ++ .fail_called onError.id x ::
              (match onError.raises x with
                | some _ => []
                | none => [.destroyed coro]))) := by
  obtain ⟨done, p⟩ := f
  constructor
  · intro hdone
    simp only at hdone
    subst hdone
    cases k
    · obtain ⟨base, then_, m_result⟩ := p
      cases m_result with
      | empty => simp [hlive]
      | exception ex => simp [hlive]
      | value mv => cases hc : onValue.raises mv <;> simp [hlive, hc]
    · obtain ⟨base, then_, m_exception⟩ := p
      cases m_exception with
      | some ex => simp [hlive]
      | none => cases hc : onValue.raises () <;> simp [hlive, hc]
    · obtain ⟨base, then_, m_value, m_exception⟩ := p
      cases m_exception with
      | some ex => simp [hlive]
      | none =>
        cases m_value with
        | none => simp [hlive]
        | some mv => cases hc : onValue.raises mv <;> simp [hlive, hc]
  · intro hrun hk hunset hparent
    simp only at hrun hunset hparent
    subst hrun
    cases k
    · obtain ⟨⟨m_parent, drop, fail⟩, then_, m_result⟩ := p
      simp only [promise_type.base] at hparent
      subst hparent
      refine ⟨by simp [hlive], by simp [hlive], ?_, ?_⟩
      · intro v
        cases hc : onValue.raises v <;> simp [hlive, hc]
      · intro x
        cases hc : onError.raises x <;> simp [hlive, hc]
    · obtain ⟨⟨m_parent, drop, fail⟩, then_, m_exception⟩ := p
      simp only [promise_type.base] at hparent
      simp [promise_type.unset] at hunset
      subst hparent hunset
      refine ⟨by simp [hlive], by simp [hlive], ?_, ?_⟩
      · intro v
        cases v
        cases hc : onValue.raises () <;> simp [hlive, hc]
      · intro x
        cases hc : onError.raises x <;> simp [hlive, hc]
    · exact absurd rfl hk

/-- Scenario 2 of the specification, through `thenOrCatch`: when the task
at address 0 has finished with the error `"boom"`, only `onError`
(callback 2) runs, with that error; when it is still pending and its body
later returns `5`, only `onValue` (callback 1) runs, with `5`. -/
theorem thenOrCatch_dispatch_witness :
    (Kind.thenOrCatch .value ⟨some 0⟩
        (example_world .value ⟨⟨none, false, none⟩, none, .exception (.user "boom")⟩ true)
        (⟨1, fun _ => none⟩ : Callback Nat String)
        (⟨2, fun _ => none⟩ : Callback (Exc String) String)).world.log
      = ([.fail_called 2 (.user "boom")] : List (Event Nat String)) ∧
    (co_return (Kind.thenOrCatch .value ⟨some 0⟩
        (example_world .value ⟨⟨none, false, none⟩, none, .empty⟩ false)
        (⟨1, fun _ => none⟩ : Callback Nat String)
        (⟨2, fun _ => none⟩ : Callback (Exc String) String)).world 0 (5 : Nat)).world.log
      = ([.then_called 1 5, .destroyed 0] : List (Event Nat String)) :=
  ⟨((thenOrCatch_dispatch .value
      (example_world .value ⟨⟨none, false, none⟩, none, .exception (.user "boom")⟩ true) 0
      ⟨true, ⟨⟨none, false, none⟩, none, .exception (.user "boom")⟩⟩
      ⟨1, fun _ => none⟩ ⟨2, fun _ => none⟩ rfl).1 rfl).1 (.user "boom") rfl,
   ((thenOrCatch_dispatch .value
      (example_world .value ⟨⟨none, false, none⟩, none, .empty⟩ false) 0
      ⟨false, ⟨⟨none, false, none⟩, none, .empty⟩⟩
      ⟨1, fun _ => none⟩ ⟨2, fun _ => none⟩ rfl).2 rfl (by decide) rfl rfl).2.2.1 (5 : Nat)⟩

/-- Why the amended C8 leaves the pending reference kind out: on the pending
reference task at address 0, `thenOrCatch` stores both callbacks, and when
the body later throws `"boom"` the frame is destroyed without either being
called (the defect shown for `then` in C7). -/
theorem thenOrCatch_on_pending_reference :
    (body_throws (async.thenOrCatch ⟨some 0⟩
        (example_world .reference ⟨⟨none, false, none⟩, none, none, none⟩ false)
        (⟨1, fun _ => none⟩ : Callback Nat String)
        (⟨2, fun _ => none⟩ : Callback (Exc String) String)).world 0
        (.user "boom")).world.log
      = ([.destroyed 0] : List (Event Nat String)) := by
  simp [example_world]

/-- **C9.** On a pending task of any kind, with no parent linked and no
callback stored (the state of an owned frame): `no_wait()` returns, empties
the handle, calls nothing, and changes the frame only by setting `drop`;
destroying the emptied handle does nothing and does not throw; when the body
later returns or throws, the frame is destroyed, exactly once, and no
callback is called. -/
theorem no_wait_detaches (k : Kind) (w : World T E k) (coro : Handle) (f : Frame T E k)
    (hlive : w.frames coro = some f) (hrun : f.done = false)
    (hparent : f.promise.base.m_parent = none) (hthen : f.promise.then_ = none)
    (hfail : f.promise.base.fail = none) :
    (async_base.no_wait ⟨some coro⟩ w).outcome = .returned () ∧
    (async_base.no_wait ⟨some coro⟩ w).self = ⟨none⟩ ∧
    (async_base.no_wait ⟨some coro⟩ w).world.log = w.log ∧
    (async_base.no_wait ⟨some coro⟩ w).world.frames coro
      = some { f with promise := f.promise.set_drop true } ∧
    (f.promise.set_drop true).base = { f.promise.base with drop := true } ∧
    (f.promise.set_drop true).then_ = none ∧
    async_base.destructor (async_base.no_wait ⟨some coro⟩ w).self
        (async_base.no_wait ⟨some coro⟩ w).world
      = ⟨(async_base.no_wait ⟨some coro⟩ w).world, .returned ()⟩ ∧
    (∀ v : k.Response T,
      (co_return (async_base.no_wait ⟨some coro⟩ w).world coro v).world.log
          = w.log ++ [.destroyed coro] ∧
      (co_return (async_base.no_wait ⟨some coro⟩ w).world coro v).world.frames coro = none ∧
      (co_return (async_base.no_wait ⟨some coro⟩ w).world coro v).outcome = .returned none) ∧
    (∀ x : Exc E,
      (body_throws (async_base.no_wait ⟨some coro⟩ w).world coro x).world.log
          = w.log ++ [.destroyed coro] ∧
      (body_throws (async_base.no_wait ⟨some coro⟩ w).world coro x).world.frames coro = none ∧
      (body_throws (async_base.no_wait ⟨some coro⟩ w).world coro x).outcome
          = .returned none) := by
  obtain ⟨done, p⟩ := f
  simp only at hrun hparent hthen hfail
  subst hrun
  cases k
  · obtain ⟨⟨m_parent, drop, fail⟩, then_, m_result⟩ := p
    simp only [promise_type.base, promise_type.then_] at hparent hthen hfail
    subst hparent hthen hfail
    simp [hlive]
  · obtain ⟨⟨m_parent, drop, fail⟩, then_, m_exception⟩ := p
    simp only [promise_type.base, promise_type.then_] at hparent hthen hfail
    subst hparent hthen hfail
    cases m_exception <;> simp [hlive]
  · obtain ⟨⟨m_parent, drop, fail⟩, then_, m_value, m_exception⟩ := p
    simp only [promise_type.base, promise_type.then_] at hparent hthen hfail
    subst hparent hthen hfail
    simp [hlive]

/-- The pending task at address 0 is detached with `no_wait()`; when its
body later throws `"boom"`, the frame is destroyed and nothing is called. -/
theorem no_wait_detaches_witness :
    (body_throws (async_base.no_wait ⟨some 0⟩
        (example_world .value ⟨⟨none, false, none⟩, none, .empty⟩ false)).world 0
        (.user "boom")).world.log
      = ([.destroyed 0] : List (Event Nat String)) :=
  ((no_wait_detaches .value (example_world .value ⟨⟨none, false, none⟩, none, .empty⟩ false) 0
      ⟨false, ⟨⟨none, false, none⟩, none, .empty⟩⟩ rfl rfl rfl rfl rfl).2.2.2.2.2.2.2.2
    (.user "boom")).1

/-- **C10.** The move constructor of `async` passes the handle to
`async_base(handle_type)`, so the source keeps the handle: after moving from
a handle that owns the finished task at address 0, both handles refer to
the frame, and destroying both destroys the frame a second time (undefined
behaviour).  The move constructor of `async_base` would have emptied the
source. -/
theorem move_constructor_keeps_source :
    (async.move ⟨some 0⟩).1 = ⟨some 0⟩ ∧
    (async.move ⟨some 0⟩).2 = ⟨some 0⟩ ∧
    (async_base.destructor (async.move ⟨some 0⟩).1
        (example_world .value ⟨⟨none, false, none⟩, none, .value 5⟩ true)).outcome
      = .returned () ∧
    (async_base.destructor (async.move ⟨some 0⟩).2
        (async_base.destructor (async.move ⟨some 0⟩).1
          (example_world .value ⟨⟨none, false, none⟩, none, .value 5⟩ true)).world).outcome
      = .undefined ∧
    (async_base.move ⟨some 0⟩).2 = ⟨none⟩ := by
  simp [example_world]

end TaskClaims

/-! ## The two maps of `interlock` over sequences of operations -/

section InterlockTraces

variable {K V E : Type} [DecidableEq K]

theorem Map.mem_keys_erase (m : List (K × V)) (k k' : K) :
    k' ∈ Map.keys (Map.erase m k) ↔ k' ∈ Map.keys m ∧ k' ≠ k := by
  simp only [Map.keys, Map.erase, List.mem_map, List.mem_filter]
  constructor
  · rintro ⟨p, ⟨hp, hne⟩, rfl⟩
    exact ⟨⟨p, hp, rfl⟩, by simpa using hne⟩
  · rintro ⟨⟨p, hp, rfl⟩, hne⟩
    exact ⟨p, ⟨hp, by simpa using hne⟩, rfl⟩

theorem Map.mem_keys_assign (m : List (K × V)) (k k' : K) (v : V) :
    k' ∈ Map.keys (Map.assign m k v) ↔ k' = k ∨ (k' ∈ Map.keys m ∧ k' ≠ k) := by
  rw [← Map.mem_keys_erase]
  simp [Map.assign, Map.keys]

theorem interlock.overlap_eq_false_iff (L : interlock K V) :
    L.overlap = false ↔ ∀ k, k ∈ Map.keys L.m_suspended → k ∉ Map.keys L.m_result := by
  simp [interlock.overlap]

/-- One operation keeps "every key with a result has been resumed, and no
key is in both maps", provided a park uses a key not resumed before. -/
theorem interlock.step_keeps_disjoint (L : interlock K V) (used : List K)
    (op : interlock.Op K V)
    (hused : ∀ k, k ∈ Map.keys L.m_result → k ∈ used)
    (hdisj : ∀ k, k ∈ Map.keys L.m_suspended → k ∉ Map.keys L.m_result) :
    match op with
    | .park id _ =>
      id ∉ used →
        (∀ k, k ∈ Map.keys (L.step op).m_result → k ∈ used) ∧
        (∀ k, k ∈ Map.keys (L.step op).m_suspended → k ∉ Map.keys (L.step op).m_result)
    | .resume _ id _ =>
      (∀ k, k ∈ Map.keys (L.step op).m_result → k ∈ id :: used) ∧
      (∀ k, k ∈ Map.keys (L.step op).m_suspended → k ∉ Map.keys (L.step op).m_result) := by
  cases op with
  | park id h =>
    intro hfresh
    refine ⟨by simpa [interlock.step, interlock.awaiter.await_suspend] using hused, ?_⟩
    intro k hk
    simp only [interlock.step, interlock.awaiter.await_suspend, interlock.suspend,
      Map.mem_keys_assign] at hk ⊢
    rcases hk with rfl | ⟨hk, _⟩
    · exact fun hr => hfresh (hused _ hr)
    · exact hdisj k hk
  | resume co id v =>
    dsimp only
    cases hfind : Map.find L.m_suspended id with
    | none =>
      have hl : L.step (.resume co id v) = L := by
        simp [interlock.step, interlock.resume, hfind]
      rw [hl]
      exact ⟨fun k hk => List.mem_cons_of_mem _ (hused k hk), hdisj⟩
    | some h =>
      cases hco : co h with
      | none =>
        have hl : L.step (.resume co id v) = { L with m_suspended := Map.erase L.m_suspended id } := by
          simp [interlock.step, interlock.resume, hfind, hco]
        rw [hl]
        refine ⟨fun k hk => List.mem_cons_of_mem _ (hused k hk), ?_⟩
        intro k hk
        exact hdisj k ((Map.mem_keys_erase _ _ _).mp hk).1
      | some c =>
        cases hd : c.done with
        | true =>
          have hl : L.step (.resume co id v)
              = { L with m_suspended := Map.erase L.m_suspended id } := by
            simp [interlock.step, interlock.resume, hfind, hco, hd]
          rw [hl]
          refine ⟨fun k hk => List.mem_cons_of_mem _ (hused k hk), ?_⟩
          intro k hk
          exact hdisj k ((Map.mem_keys_erase _ _ _).mp hk).1
        | false =>
          have hl : L.step (.resume co id v)
              = { m_suspended := Map.erase L.m_suspended id,
                  m_result := Map.assign L.m_result id v } := by
            simp [interlock.step, interlock.resume, hfind, hco, hd]
          rw [hl]
          constructor
          · intro k hk
            rcases (Map.mem_keys_assign _ _ _ _).mp hk with rfl | ⟨hk', _⟩
            · exact List.mem_cons_self _ _
            · exact List.mem_cons_of_mem _ (hused k hk')
          · intro k hk hr
            obtain ⟨hks, hne⟩ := (Map.mem_keys_erase _ _ _).mp hk
            rcases (Map.mem_keys_assign _ _ _ _).mp hr with rfl | ⟨hr', _⟩
            · exact hne rfl
            · exact hdisj k hks hr'

/-- A single-use sequence of operations keeps the two maps disjoint. -/
theorem interlock.run_keeps_disjoint (ops : List (interlock.Op K V)) :
    ∀ (L : interlock K V) (used : List K),
      (∀ k, k ∈ Map.keys L.m_result → k ∈ used) →
      (∀ k, k ∈ Map.keys L.m_suspended → k ∉ Map.keys L.m_result) →
      interlock.single_use used ops = true →
      ∀ k, k ∈ Map.keys (L.run ops).m_suspended → k ∉ Map.keys (L.run ops).m_result := by
  induction ops with
  | nil => intro L used _ hdisj _; exact hdisj
  | cons op rest ih =>
    intro L used hused hdisj hsingle
    have hstep := interlock.step_keeps_disjoint L used op hused hdisj
    cases op with
    | park id h =>
      simp only [interlock.single_use, Bool.and_eq_true, decide_eq_true_eq] at hsingle
      obtain ⟨h1, h2⟩ := hstep hsingle.1
      exact ih _ used h1 h2 hsingle.2
    | resume co id v =>
      simp only [interlock.single_use] at hsingle
      exact ih _ (id :: used) hstep.1 hstep.2 hsingle

/-- **C11**, as stated, fails: coroutine 1 parks under key `7`, the driver
calls `resume(7, "ok")`, and coroutine 1 parks under `7` again; `await_resume`
has read `m_result[7]` without erasing it, so `7` is now in both maps. -/
theorem interlock_key_in_both_maps :
    ((interlock.new : interlock Nat String).run
        [.park 7 1, .resume (fun _ => some ⟨false, some 7⟩) 7 "ok", .park 7 1]).m_suspended
      = [(7, 1)] ∧
    ((interlock.new : interlock Nat String).run
        [.park 7 1, .resume (fun _ => some ⟨false, some 7⟩) 7 "ok", .park 7 1]).m_result
      = [(7, "ok")] ∧
    ((interlock.new : interlock Nat String).run
        [.park 7 1, .resume (fun _ => some ⟨false, some 7⟩) 7 "ok", .park 7 1]).overlap
      = true := by
  refine ⟨by decide, by decide, by decide⟩

/-- **C11**, amended.  In every interlock state reached from the empty
interlock by a sequence of parks and `resume` calls in which no coroutine
parks under a key that `resume` was called for earlier (keys are used for
one suspend/resume cycle), no key is in the pending map and in the result
map at once. -/
theorem interlock_single_use_disjoint (ops : List (interlock.Op K V))
    (hsingle : interlock.single_use [] ops = true) :
    ((interlock.new : interlock K V).run ops).overlap = false :=
  (interlock.overlap_eq_false_iff _).mpr
    (interlock.run_keeps_disjoint ops interlock.new [] (by simp [interlock.new, Map.keys])
      (by simp [interlock.new, Map.keys]) hsingle)

/-- Two keys, each used once: coroutine 1 parks under `7` and is resumed,
coroutine 2 parks under `8`; no key is in both maps. -/
theorem interlock_single_use_disjoint_witness :
    ((interlock.new : interlock Nat String).run
        [.park 7 1, .resume (fun _ => some ⟨false, some 7⟩) 7 "ok", .park 8 2]).overlap
      = false :=
  interlock_single_use_disjoint
    [.park 7 1, .resume (fun _ => some ⟨false, some 7⟩) 7 "ok", .park 8 2] (by decide)

/-- **C13**, as stated, fails: key `7` is pending with coroutine 1, which
has already finished; `resume(7, "ok")` removes `7` from the pending map
and returns, but the assignment to `m_result` is inside
`if (!continuation.done())`, so nothing is deposited. -/
theorem interlock_resume_finished_deposits_nothing :
    ((⟨[(7, 1)], []⟩ : interlock Nat String).resume (E := Unit)
        (fun _ => some ⟨true, none⟩) 7 "ok").outcome = .returned () ∧
    ((⟨[(7, 1)], []⟩ : interlock Nat String).resume (E := Unit)
        (fun _ => some ⟨true, none⟩) 7 "ok").lock.m_suspended = [] ∧
    ((⟨[(7, 1)], []⟩ : interlock Nat String).resume (E := Unit)
        (fun _ => some ⟨true, none⟩) 7 "ok").lock.m_result = [] ∧
    Map.find ((⟨[(7, 1)], []⟩ : interlock Nat String).resume (E := Unit)
        (fun _ => some ⟨true, none⟩) 7 "ok").lock.m_result 7 = none := by
  refine ⟨by decide, by decide, by decide, by decide⟩

/-- **C13**, amended.  For a pending key `k` whose parked handle refers to a
live coroutine frame, `resume(k, value)` returns and removes `k` from the
pending map whether or not the coroutine has finished; it deposits `value`
under `k` and resumes the coroutine exactly when the coroutine has not
finished, and leaves the result map as it was when it has. -/
theorem interlock_resume_pending (L : interlock K V)
    (coroutines : Handle → Option (Waiter K)) (k : K) (value : V)
    (continuation : Handle) (c : Waiter K)
    (hpending : Map.find L.m_suspended k = some continuation)
    (hframe : coroutines continuation = some c) :
    (L.resume (E := E) coroutines k value).outcome = .returned () ∧
    (L.resume (E := E) coroutines k value).lock.m_suspended = Map.erase L.m_suspended k ∧
    k ∉ Map.keys (L.resume (E := E) coroutines k value).lock.m_suspended ∧
    (c.done = false →
      (L.resume (E := E) coroutines k value).lock.m_result = Map.assign L.m_result k value ∧
      Map.find (L.resume (E := E) coroutines k value).lock.m_result k = some value ∧
      (L.resume (E := E) coroutines k value).resumed
        = some (continuation, c.resume (L.resume (E := E) coroutines k value).lock)) ∧
    (c.done = true →
      (L.resume (E := E) coroutines k value).lock.m_result = L.m_result ∧
      (L.resume (E := E) coroutines k value).resumed = none) := by
  cases hd : c.done with
  | true =>
    have hr : L.resume (E := E) coroutines k value
        = ⟨{ L with m_suspended := Map.erase L.m_suspended k }, .returned (), none⟩ := by
      simp [interlock.resume, hpending, hframe, hd]
    rw [hr]
    exact ⟨rfl, rfl, Map.not_mem_keys_erase _ _, fun h => by simp at h, fun _ => ⟨rfl, rfl⟩⟩
  | false =>
    have hr : L.resume (E := E) coroutines k value
        = ⟨{ m_suspended := Map.erase L.m_suspended k,
              m_result := Map.assign L.m_result k value },
            .returned (),
            some (continuation,
              c.resume { m_suspended := Map.erase L.m_suspended k,
                         m_result := Map.assign L.m_result k value })⟩ := by
      simp [interlock.resume, hpending, hframe, hd]
    rw [hr]
    exact ⟨rfl, rfl, Map.not_mem_keys_erase _ _,
      fun _ => ⟨rfl, Map.find_assign_self _ _ _, rfl⟩, fun h => by simp at h⟩

/-- Key `7` is pending with the unfinished coroutine 1 and key `8` with the
finished coroutine 2: `resume(7, "ok")` deposits `"ok"`, `resume(8, "late")`
only removes `8` from the pending map. -/
theorem interlock_resume_pending_witness :
    Map.find ((⟨[(7, 1), (8, 2)], []⟩ : interlock Nat String).resume (E := Unit)
        (fun h => if h = 1 then some ⟨false, some 7⟩ else some ⟨true, none⟩) 7 "ok").lock.m_result
        7 = some "ok" ∧
    ((⟨[(7, 1), (8, 2)], []⟩ : interlock Nat String).resume (E := Unit)
        (fun h => if h = 1 then some ⟨false, some 7⟩ else some ⟨true, none⟩) 8 "late").lock.m_result
      = [] :=
  ⟨((interlock_resume_pending (E := Unit) (⟨[(7, 1), (8, 2)], []⟩ : interlock Nat String)
      (fun h => if h = 1 then some ⟨false, some 7⟩ else some ⟨true, none⟩) 7 "ok" 1
      ⟨false, some 7⟩ (by decide) (by decide)).2.2.2.1 rfl).2.1,
   ((interlock_resume_pending (E := Unit) (⟨[(7, 1), (8, 2)], []⟩ : interlock Nat String)
      (fun h => if h = 1 then some ⟨false, some 7⟩ else some ⟨true, none⟩) 8 "late" 2
      ⟨true, none⟩ (by decide) (by decide)).2.2.2.2 rfl).1⟩

end InterlockTraces

/-! ## The final step of a task -/

section FinalStep

variable {T E : Type}

/-- The three-way choice of `final_awaitable::await_suspend` on a finished
task, for every kind: with a parent linked, the link is cleared, the frame
stays and the parent is the handle transferred to; otherwise, when the frame
is detached, it is destroyed, which runs the promise destructor; otherwise
nothing changes and nothing is resumed. -/
theorem final_step_dispatch (k : Kind) (w : World T E k) (coro : Handle) (f : Frame T E k)
    (hlive : w.frames coro = some f) (hdone : f.done = true) :
    (∀ parent, f.promise.base.m_parent = some parent →
      final_awaitable.await_suspend w coro
        = ⟨w.store coro { f with promise := f.promise.set_parent none },
            .returned (some parent)⟩) ∧
    (f.promise.base.m_parent = none → f.promise.base.drop = true →
      f.promise.destructor.2 = none →
      (final_awaitable.await_suspend w coro).outcome = .returned none ∧
      (final_awaitable.await_suspend w coro).world.frames coro = none ∧
      (final_awaitable.await_suspend w coro).world.log
        = w.log ++ f.promise.destructor.1 ++ [.destroyed coro]) ∧
    (f.promise.base.m_parent = none → f.promise.base.drop = false →
      final_awaitable.await_suspend w coro = ⟨w, .returned none⟩) := by
  obtain ⟨done, p⟩ := f
  simp only at hdone
  subst hdone
  refine ⟨?_, ?_, ?_⟩
  · intro parent hparent
    simp only at hparent
    simp [-promise_type.base, -promise_type.set_parent, hlive, hparent]
  · intro hparent hdrop hquiet
    simp only at hparent hdrop hquiet
    rcases hd : promise_type.destructor p with ⟨events, thrown⟩
    rw [hd] at hquiet
    simp only at hquiet
    subst hquiet
    simp [-promise_type.base, -promise_type.destructor, hlive, hparent, hdrop, hd]
  · intro hparent hdrop
    simp only at hparent hdrop
    simp [-promise_type.base, hlive, hparent, hdrop]

/-- **C12.** A finished, detached reference task at address 0 with no parent
linked and both callbacks stored (`then` is callback 1, `fail` is callback
2): the final step destroys the frame and calls neither callback, whether
the task finished with a referent (`5`) or with an error (`"boom"`),
because `~async_promise<T&>()` calls nothing. -/
theorem final_step_detached_reference :
    (final_awaitable.await_suspend
        (example_world .reference
          ⟨⟨none, true, some ⟨2, fun _ => none⟩⟩, some ⟨1, fun _ => none⟩, some 5, none⟩ true)
        0).world.log = ([.destroyed 0] : List (Event Nat String)) ∧
    (final_awaitable.await_suspend
        (example_world .reference
          ⟨⟨none, true, some ⟨2, fun _ => none⟩⟩, some ⟨1, fun _ => none⟩, none,
            some (.user "boom")⟩ true)
        0).world.log = ([.destroyed 0] : List (Event Nat String)) := by
  simp [example_world]

/-- The same two finished, detached tasks as value tasks: the final step
calls the callback that matches the result, then destroys the frame. -/
theorem final_step_detached_value :
    (final_awaitable.await_suspend
        (example_world .value
          ⟨⟨none, true, some ⟨2, fun _ => none⟩⟩, some ⟨1, fun _ => none⟩, .value 5⟩ true)
        0).world.log = ([.then_called 1 5, .destroyed 0] : List (Event Nat String)) ∧
    (final_awaitable.await_suspend
        (example_world .value
          ⟨⟨none, true, some ⟨2, fun _ => none⟩⟩, some ⟨1, fun _ => none⟩,
            .exception (.user "boom")⟩ true)
        0).world.log
      = ([.fail_called 2 (.user "boom"), .destroyed 0] : List (Event Nat String)) := by
  simp [example_world]

end FinalStep

/-! ## The interlock when `resume` returns -/

section ResumeReturns

variable {K V E : Type} [DecidableEq K]

/-- One operation adds no pending key other than the one parked. -/
theorem interlock.step_pending (L : interlock K V) (op : interlock.Op K V) (k : K)
    (hk : k ∈ Map.keys (L.step op).m_suspended) :
    k ∈ Map.keys L.m_suspended ∨ k ∈ interlock.parks [op] := by
  cases op with
  | park id h =>
    simp only [interlock.step, interlock.awaiter.await_suspend, interlock.suspend,
      Map.mem_keys_assign] at hk
    rcases hk with rfl | ⟨hk, _⟩
    · exact Or.inr (by simp [interlock.parks])
    · exact Or.inl hk
  | resume co id v =>
    left
    cases hfind : Map.find L.m_suspended id with
    | none =>
      have hl : L.step (.resume co id v) = L := by
        simp [interlock.step, interlock.resume, hfind]
      rwa [hl] at hk
    | some h =>
      have hl : (L.step (.resume co id v)).m_suspended = Map.erase L.m_suspended id := by
        cases hco : co h with
        | none => simp [interlock.step, interlock.resume, hfind, hco]
        | some c => cases hd : c.done <;> simp [interlock.step, interlock.resume, hfind, hco, hd]
      rw [hl] at hk
      exact ((Map.mem_keys_erase _ _ _).mp hk).1

/-- A sequence of operations adds no pending keys other than those parked
in it. -/
theorem interlock.run_pending (ops : List (interlock.Op K V)) :
    ∀ (L : interlock K V) (k : K), k ∈ Map.keys (L.run ops).m_suspended →
      k ∈ Map.keys L.m_suspended ∨ k ∈ interlock.parks ops := by
  induction ops with
  | nil => intro L k hk; exact Or.inl hk
  | cons op rest ih =>
    intro L k hk
    rcases ih (L.step op) k hk with h | h
    · rcases interlock.step_pending L op k h with h' | h'
      · exact Or.inl h'
      · right
        cases op <;> simp_all [interlock.parks]
    · right
      cases op <;> simp_all [interlock.parks]

/-- **C1**, as stated, fails: coroutine 1 is parked under `7`, the only
pending key; `resume(7, "ok")` resumes it with `"ok"`, and, running inside
the call, it awaits `suspend(7)` again; when `resume` returns, `7` is
pending and `empty()` is false. -/
theorem interlock_resume_waiter_parks_again :
    ((⟨[(7, 1)], []⟩ : interlock Nat String).resume (E := Unit)
        (fun _ => some ⟨false, some 7⟩) 7 "ok").resumed
      = some (1, some (.returned "ok")) ∧
    ((⟨[(7, 1)], []⟩ : interlock Nat String).resume_returns
        (fun _ => some ⟨false, some 7⟩) 7 "ok" [.park 7 1]).m_suspended = [(7, 1)] ∧
    ((⟨[(7, 1)], []⟩ : interlock Nat String).resume_returns
        (fun _ => some ⟨false, some 7⟩) 7 "ok" [.park 7 1]).empty = false := by
  refine ⟨by decide, by decide, by decide⟩

/-- **C1**, amended.  If an unfinished coroutine `waiter` is parked under
`k` (it is the handle stored under `k` and it is suspended in the awaiter
made by `suspend(k)`), then `resume(k, v)` returns normally; `waiter` is the
coroutine resumed and its `co_await` evaluates to exactly `v`, whatever
`m_result` held under `k` before; at the moment `waiter` is resumed `k` is
not pending, and `empty()` is true then when `k` was the only pending key.
When `resume` returns, `k` is not pending provided no coroutine parked under
`k` while `waiter` ran inside the call, and `empty()` is true when `k` was
the only pending key and no coroutine parked at all in that time. -/
theorem interlock_resume_delivers (L : interlock K V)
    (coroutines : Handle → Option (Waiter K)) (k : K) (v : V) (waiter : Handle)
    (during : List (interlock.Op K V))
    (hparked : Map.find L.m_suspended k = some waiter)
    (hwaiter : coroutines waiter = some ⟨false, some k⟩) :
    (L.resume (E := E) coroutines k v).outcome = .returned () ∧
    (L.resume (E := E) coroutines k v).resumed = some (waiter, some (.returned v)) ∧
    k ∉ Map.keys (L.resume (E := E) coroutines k v).lock.m_suspended ∧
    ((∀ k' ∈ Map.keys L.m_suspended, k' = k) →
      (L.resume (E := E) coroutines k v).lock.empty = true) ∧
    (k ∉ interlock.parks during →
      k ∉ Map.keys (L.resume_returns coroutines k v during).m_suspended) ∧
    ((∀ k' ∈ Map.keys L.m_suspended, k' = k) → interlock.parks during = [] →
      (L.resume_returns coroutines k v during).empty = true) := by
  have hr : ∀ E' : Type, L.resume (E := E') coroutines k v =
      ⟨{ m_suspended := Map.erase L.m_suspended k, m_result := Map.assign L.m_result k v },
        .returned (), some (waiter, some (.returned v))⟩ := by
    intro E'
    simp [interlock.resume, hparked, hwaiter, Waiter.resume, interlock.awaiter.await_resume,
      Map.find_assign_self]
  have hret : L.resume_returns coroutines k v during =
      (⟨Map.erase L.m_suspended k, Map.assign L.m_result k v⟩ : interlock K V).run during := by
    simp [interlock.resume_returns, hr Unit]
  rw [hr E, hret]
  refine ⟨rfl, rfl, Map.not_mem_keys_erase _ _, ?_, ?_, ?_⟩
  · intro honly
    simp [interlock.empty, Map.empty, Map.erase_eq_nil _ _ honly]
  · intro hnopark hk
    rcases interlock.run_pending during _ k hk with h | h
    · exact Map.not_mem_keys_erase _ _ h
    · exact hnopark h
  · intro honly hnopark
    have hnone : ∀ k', k' ∉ Map.keys
        ((⟨Map.erase L.m_suspended k, Map.assign L.m_result k v⟩ : interlock K V).run
          during).m_suspended := by
      intro k' hk'
      rcases interlock.run_pending during _ k' hk' with h | h
      · simp [Map.erase_eq_nil _ _ honly, Map.keys] at h
      · simp [hnopark] at h
    cases hs : ((⟨Map.erase L.m_suspended k, Map.assign L.m_result k v⟩ : interlock K V).run
        during).m_suspended with
    | nil => simp [interlock.empty, Map.empty, hs]
    | cons p rest =>
      exact absurd (by simp [hs, Map.keys]) (hnone p.1)

/-- Scenario 3 of the specification: `A` (handle 1) awaits `L.suspend(7)`,
the driver calls `L.resume(7, "ok")` although an older value is stored under
`7`; `A` resumes with `"ok"`, and, `A` not awaiting the interlock again,
`L.empty()` is true when the call returns.  When instead coroutine 2 parks
under `8` during the call, `7` is still not pending when it returns. -/
theorem interlock_resume_delivers_witness :
    (((interlock.awaiter.await_suspend ⟨7⟩
        (⟨[], [(7, "old")]⟩ : interlock Nat String) 1).1.resume (E := Unit)
          (fun _ => some ⟨false, some 7⟩) 7 "ok").resumed
      = some (1, some (.returned "ok"))) ∧
    ((interlock.awaiter.await_suspend ⟨7⟩
        (⟨[], [(7, "old")]⟩ : interlock Nat String) 1).1.resume_returns
          (fun _ => some ⟨false, some 7⟩) 7 "ok" []).empty = true ∧
    7 ∉ Map.keys ((interlock.awaiter.await_suspend ⟨7⟩
        (⟨[], [(7, "old")]⟩ : interlock Nat String) 1).1.resume_returns
          (fun _ => some ⟨false, some 7⟩) 7 "ok" [.park 8 2]).m_suspended :=
  ⟨(interlock_resume_delivers (E := Unit)
      (interlock.awaiter.await_suspend ⟨7⟩ (⟨[], [(7, "old")]⟩ : interlock Nat String) 1).1
      (fun _ => some ⟨false, some 7⟩) 7 "ok" 1 [] (by decide) rfl).2.1,
   (interlock_resume_delivers (E := Unit)
      (interlock.awaiter.await_suspend ⟨7⟩ (⟨[], [(7, "old")]⟩ : interlock Nat String) 1).1
      (fun _ => some ⟨false, some 7⟩) 7 "ok" 1 [] (by decide) rfl).2.2.2.2.2
        (by decide) rfl,
   (interlock_resume_delivers (E := Unit)
      (interlock.awaiter.await_suspend ⟨7⟩ (⟨[], [(7, "old")]⟩ : interlock Nat String) 1).1
      (fun _ => some ⟨false, some 7⟩) 7 "ok" 1 [.park 8 2] (by decide) rfl).2.2.2.2.1
        (by decide)⟩

end ResumeReturns

end cppasync
